/-
Verification of the image metadata & lifecycle state machine of the
imageViewer backend (FastAPI, Python).  The Python sources under
src/backend are shallowly embedded: JSON objects become association
lists of string keys and simple JSON values, the three on-disk
locations (pool = BASE_DIR, picks, trash) become a record of
directories, and each endpoint function becomes a pure state
transformer returning the final filesystem state, the list of
sidecar/image events it performed, and an optional error.
-/
import Mathlib

/-- A JSON scalar value as it appears in a sidecar file.  The sidecars
written and read by the backend only ever hold strings, booleans,
integers and null at the top level. -/
inductive Val where
  | null : Val
  | bool (b : Bool) : Val
  | num (n : Int) : Val
  | str (s : String) : Val
deriving DecidableEq

/-- A parsed JSON object: an association list from keys to values,
with Python-dict semantics (unique keys in practice; first match on
lookup, in-place replacement on assignment). -/
abbrev Obj := List (String × Val)

/-- Lookup in an association list, first match wins (Python `d[k]` /
`k in d`). -/
def getA {α : Type} : List (String × α) → String → Option α
  | [], _ => none
  | (k, v) :: rest, key => if k = key then some v else getA rest key

/-- Assignment in an association list (Python `d[k] = v`): replace the
first binding of the key in place, or append a new binding. -/
def setA {α : Type} : List (String × α) → String → α → List (String × α)
  | [], key, v => [(key, v)]
  | (k, w) :: rest, key, v =>
    if k = key then (key, v) :: rest else (k, w) :: setA rest key v

/-- Deletion from an association list (file `unlink`): remove the first
binding of the key. -/
def delA {α : Type} : List (String × α) → String → List (String × α)
  | [], _ => []
  | (k, w) :: rest, key => if k = key then rest else (k, w) :: delA rest key

theorem getA_setA_self {α : Type} (l : List (String × α)) (k : String) (v : α) :
    getA (setA l k v) k = some v := by
  induction l with
  | nil => simp [getA, setA]
  | cons h t ih =>
    by_cases hk : h.1 = k <;> simp [getA, setA, hk, ih]

theorem getA_setA_ne {α : Type} (l : List (String × α)) (k k' : String) (v : α)
    (h : k' ≠ k) : getA (setA l k v) k' = getA l k' := by
  have h2 : k ≠ k' := Ne.symm h
  induction l with
  | nil => simp [getA, setA, h, h2]
  | cons hd t ih =>
    by_cases hk : hd.1 = k
    · simp [getA, setA, hk, h, h2]
    · by_cases hk' : hd.1 = k' <;> simp [getA, setA, hk, hk', h, h2, ih]

theorem getA_delA_ne {α : Type} (l : List (String × α)) (k k' : String)
    (h : k' ≠ k) : getA (delA l k) k' = getA l k' := by
  have h2 : k ≠ k' := Ne.symm h
  induction l with
  | nil => simp [delA]
  | cons hd t ih =>
    by_cases hk : hd.1 = k
    · have hne : ¬ hd.1 = k' := by rw [hk]; exact h2
      simp [getA, delA, hk, hne, h, h2]
    · by_cases hk' : hd.1 = k' <;> simp [getA, delA, hk, hk', h, h2, ih]

theorem getA_eq_none_of_not_mem {α : Type} (l : List (String × α)) (k : String)
    (h : k ∉ l.map Prod.fst) : getA l k = none := by
  induction l with
  | nil => simp [getA]
  | cons hd t ih =>
    simp only [List.map_cons, List.mem_cons] at h
    push_neg at h
    have hne : ¬ hd.1 = k := fun hc => h.1 hc.symm
    simp [getA, hne, ih h.2]

theorem getA_delA_self {α : Type} (l : List (String × α)) (k : String)
    (h : (l.map Prod.fst).Nodup) : getA (delA l k) k = none := by
  induction l with
  | nil => simp [delA, getA]
  | cons hd t ih =>
    simp only [List.map_cons, List.nodup_cons] at h
    by_cases hk : hd.1 = k
    · subst hk
      simp only [delA, if_pos rfl]
      exact getA_eq_none_of_not_mem t hd.1 h.1
    · simp [getA, delA, hk, ih h.2]

/-- Python truthiness of a JSON value (`if metadata["trash"]: ...`):
null and False are falsy, `""` is falsy, `0` is falsy. -/
def pyTruthy : Val → Bool
  | Val.null => false
  | Val.bool b => b
  | Val.num n => n ≠ 0
  | Val.str s => s ≠ ""

/-- Python `dict.update`: apply each binding of `updates` in order,
overwriting existing keys and appending new ones (move_images.py line
58: `data.update(updates)`). -/
def dictUpdate (d : Obj) (updates : Obj) : Obj :=
  updates.foldl (fun acc kv => setA acc kv.1 kv.2) d

/-- Index of the last '.' in a list of characters, if any
(Python `str.rfind`). -/
def lastDotIdx : List Char → Option Nat
  | [] => none
  | c :: rest =>
    match lastDotIdx rest with
    | some i => some (i + 1)
    | none => if c = '.' then some 0 else none

/-- Python `pathlib.PurePath.stem`: the file name with its suffix
removed; the suffix is the part from the last '.' provided that dot is
neither the first nor the last character. -/
def pyStem (name : String) : String :=
  let cs := name.toList
  match lastDotIdx cs with
  | some i => if 0 < i ∧ i < cs.length - 1 then (cs.take i).asString else name
  | none => name

/-- Python `pathlib.PurePath.suffix` under the same convention. -/
def pySfx (name : String) : String :=
  let cs := name.toList
  match lastDotIdx cs with
  | some i => if 0 < i ∧ i < cs.length - 1 then (cs.drop i).asString else ""
  | none => ""

/-- The sidecar file name for an image file name:
`Path(filename).stem + ".json"` (move_images.py line 51), which also
equals `file.with_suffix('.json')` (images.py line 21). -/
def sideName (name : String) : String := pyStem name ++ ".json"

example : sideName ("a.png") = "a.json" := by decide
example : pySfx ("a.json") = ".json" := by decide
example : pyStem ("archive.tar.gz") = "archive.tar" := by decide

/-- An error raised by the Python code: either a FastAPI `HTTPException`
with a status code and detail string, or a plain Python exception
(OSError, JSONDecodeError, ...) with a message. -/
inductive PyErr where
  | http (status : Nat) (detail : String) : PyErr
  | pyexc (msg : String) : PyErr
deriving DecidableEq

/-- Message text of an error, as the endpoint handlers see it via
`str(e)`.  Only the resulting status matters to the claims. -/
def errMsg : PyErr → String
  | PyErr.http _ d => d
  | PyErr.pyexc m => m

/-- The `except Exception as e: raise HTTPException(status_code=500,
detail=str(e))` wrapper that every endpoint ends with.  Note that
FastAPI's `HTTPException` is itself a subclass of `Exception`, so even
the 404s raised inside the `try` block are re-raised as status 500. -/
def wrap (e : PyErr) : PyErr := PyErr.http 500 (errMsg e)

/-- Apply the endpoint wrapper to the error of a fallible result. -/
def wrapE {α : Type} : Except PyErr α → Except PyErr α
  | Except.ok a => Except.ok a
  | Except.error e => Except.error (wrap e)

/-- Content of one file on disk: either opaque non-JSON bytes (an image,
on which `json.loads` would raise), or a parsed JSON object. -/
inductive FContent where
  | binary (data : String) : FContent
  | json (o : Obj) : FContent
deriving DecidableEq

/-- One directory: whether it exists, and its directly contained files
keyed by file name. -/
structure Dir where
  present : Bool
  files : List (String × FContent)
deriving DecidableEq

/-- The three on-disk locations: the base directory (`BASE_DIR`, the
pool), `BASE_DIR/picks` and `BASE_DIR/trash`. -/
inductive Loc where
  | pool : Loc
  | picks : Loc
  | trash : Loc
deriving DecidableEq

/-- The whole asset tree. -/
structure FS where
  pool : Dir
  picks : Dir
  trash : Dir
deriving DecidableEq

def FS.dirOf (fs : FS) : Loc → Dir
  | Loc.pool => fs.pool
  | Loc.picks => fs.picks
  | Loc.trash => fs.trash

def FS.setDir (fs : FS) : Loc → Dir → FS
  | Loc.pool, d => { fs with pool := d }
  | Loc.picks, d => { fs with picks := d }
  | Loc.trash, d => { fs with trash := d }

theorem dirOf_setDir (fs : FS) (l l' : Loc) (d : Dir) :
    (fs.setDir l d).dirOf l' = if l' = l then d else fs.dirOf l' := by
  cases l <;> cases l' <;> simp [FS.dirOf, FS.setDir]

/-- `path.exists()` for a file: the directory exists and directly
contains a file of that name; returns its content. -/
def getFile (fs : FS) (loc : Loc) (name : String) : Option FContent :=
  if (fs.dirOf loc).present then getA (fs.dirOf loc).files name else none

/-- Replace a directory's file list. -/
def FS.setFiles (fs : FS) (loc : Loc) (l : List (String × FContent)) : FS :=
  fs.setDir loc { fs.dirOf loc with files := l }

/-- `ensure_directory_exists` (move_images.py lines 13-19): create the
directory if absent; a freshly created directory is empty. -/
def FS.ensureDir (fs : FS) (loc : Loc) : FS :=
  if (fs.dirOf loc).present then fs else fs.setDir loc { present := true, files := [] }

/-- A well-formed on-disk state: a non-existent directory holds no
files, and file names are unique within a directory (both automatic on
a real filesystem). -/
def Dir.WF (d : Dir) : Prop :=
  (d.present = false → d.files = []) ∧ (d.files.map Prod.fst).Nodup

def FS.WF (fs : FS) : Prop := fs.pool.WF ∧ fs.picks.WF ∧ fs.trash.WF

instance (d : Dir) : Decidable d.WF := by
  unfold Dir.WF
  infer_instance

instance (fs : FS) : Decidable fs.WF := by
  unfold FS.WF
  infer_instance

/-- The default sidecar record (images.py lines 22-29). -/
def defaultMetadata (name : String) : Obj :=
  [("filename", Val.str name), ("trash", Val.bool false), ("pick", Val.bool false),
   ("rating", Val.null), ("notes", Val.str ""), ("prompt", Val.str "")]

/-- `ensure_json_exists` (images.py lines 14-31): if the image's
sidecar `<stem>.json` is absent from the directory, write the default
metadata there. -/
def ensure_json_exists (d : Dir) (name : String) : Dir :=
  match getA d.files (sideName name) with
  | some _ => d
  | none => { d with files := setA d.files (sideName name) (FContent.json (defaultMetadata name)) }

/-- The keys repaired by `update_json_if_needed` (images.py line 47). -/
def backfillKeys : List String := ["trash", "pick", "rating", "notes", "prompt"]

/-- One iteration of the repair loop (images.py lines 48-49): a key
that is absent or null is set to the empty string. -/
def backfillOne (m : Obj) (k : String) : Obj :=
  match getA m k with
  | none => setA m k (Val.str "")
  | some Val.null => setA m k (Val.str "")
  | some _ => m

/-- The metadata-level body of `update_json_if_needed` (images.py lines
46-49): backfill every missing or null field of
{trash, pick, rating, notes, prompt} with `""`. -/
def backfillMissingFields (m : Obj) : Obj := backfillKeys.foldl backfillOne m

/-- `update_json_if_needed` (images.py lines 34-53): load the image's
sidecar, backfill missing fields, write it back.  Fails if the sidecar
is absent (`open` raises) or unparsable (`json.load` raises). -/
def update_json_if_needed (d : Dir) (name : String) : Except PyErr Dir :=
  match getA d.files (sideName name) with
  | none => Except.error (PyErr.pyexc ("FileNotFoundError"))
  | some (FContent.binary _) => Except.error (PyErr.pyexc ("JSONDecodeError"))
  | some (FContent.json m) =>
    Except.ok { d with files := setA d.files (sideName name) (FContent.json (backfillMissingFields m)) }

/-- `load_metadata` (image.py lines 32-43) reading the file at
`dir/jname`: `open` fails when the file (or its directory) is absent,
`json.load` fails on non-JSON content. -/
def load_metadata (d : Dir) (jname : String) : Except PyErr Obj :=
  if d.present then
    match getA d.files jname with
    | none => Except.error (PyErr.pyexc ("FileNotFoundError"))
    | some (FContent.binary _) => Except.error (PyErr.pyexc ("JSONDecodeError"))
    | some (FContent.json m) => Except.ok m
  else Except.error (PyErr.pyexc ("FileNotFoundError"))

/-- `collect_json_files` (images.py lines 56-72): the files of the
directory whose suffix is `.json`, or the empty list when the
directory does not exist. -/
def collect_json_files (d : Dir) : List (String × FContent) :=
  if d.present then d.files.filter (fun f => pySfx f.1 = ".json") else []

/-- `process_json_metadata` (images.py lines 75-93): parse every
collected sidecar in order, keeping those accepted by the optional
filter; the first unparsable file aborts with an exception. -/
def process_json_metadata (files : List (String × FContent)) (filt : Option (Obj → Bool)) :
    Except PyErr (List Obj) :=
  match files with
  | [] => Except.ok []
  | (_, FContent.binary _) :: _ => Except.error (PyErr.pyexc ("JSONDecodeError"))
  | (_, FContent.json m) :: rest =>
    match process_json_metadata rest filt with
    | Except.error e => Except.error e
    | Except.ok ms =>
      match filt with
      | some f => if f m then Except.ok (m :: ms) else Except.ok ms
      | none => Except.ok (m :: ms)

/-- The image-file test of the scan loop (images.py line 139): not
hidden and not itself a sidecar. -/
def isImageName (name : String) : Bool :=
  (!(name.startsWith ("."))) && (pySfx name ≠ ".json")

/-- One iteration of the scan loop (images.py lines 140-141): ensure
the sidecar exists, then backfill it; an iteration that raises aborts
the remaining loop but keeps the mutations already made. -/
def scanFold (acc : Dir × Option PyErr) (name : String) : Dir × Option PyErr :=
  match acc with
  | (d, some e) => (d, some e)
  | (d, none) =>
    let d1 := ensure_json_exists d name
    match update_json_if_needed d1 name with
    | Except.error e => (d1, some e)
    | Except.ok d2 => (d2, none)

/-- The per-directory scan of `get_images` (images.py lines 133-141):
skip a non-existent directory, otherwise run ensure+backfill over the
snapshot of image-file names. -/
def scanDir (d : Dir) : Dir × Option PyErr :=
  if d.present then ((d.files.map Prod.fst).filter isImageName).foldl scanFold (d, none)
  else (d, none)

/-- The parsed objects of a directory's sidecar files. -/
def sidecarObjs (d : Dir) : List Obj :=
  (collect_json_files d).filterMap
    (fun f => match f.2 with | FContent.json m => some m | FContent.binary _ => none)

/-- The filter of `get_trash_images` (images.py line 174):
`"trash" in metadata and metadata["trash"]` under Python truthiness. -/
def trashFilter (m : Obj) : Bool :=
  match getA m "trash" with
  | some v => pyTruthy v
  | none => false

/-- The filter of `get_pick_images` (images.py line 197). -/
def pickFilter (m : Obj) : Bool :=
  match getA m "pick" with
  | some v => pyTruthy v
  | none => false

/-- `get_trash_images` (images.py lines 153-177): 404 when the base
directory is absent, otherwise the filtered sidecar objects of the
trash directory; every error is re-raised as a 500 by the handler. -/
def get_trash_images (fs : FS) : Except PyErr (List Obj) :=
  wrapE (if fs.pool.present then
           process_json_metadata (collect_json_files fs.trash) (some trashFilter)
         else Except.error (PyErr.http 404 ("Base directory does not exist")))

/-- `get_pick_images` (images.py lines 180-200). -/
def get_pick_images (fs : FS) : Except PyErr (List Obj) :=
  wrapE (if fs.pool.present then
           process_json_metadata (collect_json_files fs.picks) (some pickFilter)
         else Except.error (PyErr.http 404 ("Base directory does not exist")))

/-- `get_images` (images.py lines 111-150): 404 when the base directory
is absent; otherwise scan (ensure + backfill) pool, picks and trash in
that order, then collect and parse all sidecars of the three
directories, unfiltered.  Mutations made before a failure persist, and
any error is re-raised as a 500. -/
def get_images (fs : FS) : FS × Except PyErr (List Obj) :=
  if fs.pool.present then
    match scanDir fs.pool with
    | (p, some e) => (⟨p, fs.picks, fs.trash⟩, Except.error (wrap e))
    | (p, none) =>
      match scanDir fs.picks with
      | (pk, some e) => (⟨p, pk, fs.trash⟩, Except.error (wrap e))
      | (pk, none) =>
        match scanDir fs.trash with
        | (t, some e) => (⟨p, pk, t⟩, Except.error (wrap e))
        | (t, none) =>
          let fs1 : FS := ⟨p, pk, t⟩
          match process_json_metadata
              (collect_json_files p ++ collect_json_files pk ++ collect_json_files t) none with
          | Except.error e => (fs1, Except.error (wrap e))
          | Except.ok ms => (fs1, Except.ok ms)
  else (fs, Except.error (wrap (PyErr.http 404 ("Base directory does not exist"))))

/-- `get_target_directory` (image.py lines 14-30): `'trash'` and
`'picks'` map to their subdirectories; anything else — `None` or an
unrecognized tag — silently falls through to the base directory. -/
def get_target_directory (directory : Option String) : Loc :=
  if directory = some "trash" then Loc.trash
  else if directory = some "picks" then Loc.picks
  else Loc.pool

/-- The field updates of `update_metadata` (image.py lines 102-106):
overwrite `notes` and/or `prompt` exactly when supplied. -/
def updAnn (m : Obj) (notes promptv : Option String) : Obj :=
  let m1 := match notes with
    | some s => setA m "notes" (Val.str s)
    | none => m
  match promptv with
  | some s => setA m1 "prompt" (Val.str s)
  | none => m1

/-- `update_metadata` (image.py lines 56-113): resolve the location,
404 when the base directory or the sidecar is absent, then load the
sidecar, overwrite `notes` and/or `prompt` exactly when the caller
supplied them, and write back.  Errors are re-raised as 500 by the
handler; the state is returned alongside the result. -/
def update_metadata (fs : FS) (filename : String) (directory : Option String)
    (notes promptv : Option String) : FS × Except PyErr String :=
  if fs.pool.present then
    let tgt := get_target_directory directory
    let jname := sideName filename
    match getFile fs tgt jname with
    | none => (fs, Except.error (wrap (PyErr.http 404 ("File not found"))))
    | some (FContent.binary _) => (fs, Except.error (wrap (PyErr.pyexc ("JSONDecodeError"))))
    | some (FContent.json m) =>
      (fs.setFiles tgt (setA (fs.dirOf tgt).files jname (FContent.json (updAnn m notes promptv))),
       Except.ok ("Metadata updated successfully"))
  else (fs, Except.error (wrap (PyErr.http 404 ("Base directory does not exist"))))

/-- An observable file-system event of a lifecycle transition, used to
state in which order the steps happen. -/
inductive Ev where
  | movImage (src dst : Loc) (name : String) : Ev
  | writeSidecar (dst : Loc) (jname : String) : Ev
  | delSidecar (src : Loc) (jname : String) : Ev
deriving DecidableEq

/-- `move_file` (move_images.py lines 21-39): 404 when the source file
is absent, otherwise `shutil.move` it — deleting it at the source and
silently replacing any existing file of that name at the destination
(no pre-existence check is made there).  A missing destination
directory would make `shutil.move` raise an OSError. -/
def move_file (fs : FS) (src dst : Loc) (name : String) : Except PyErr FS :=
  match getFile fs src name with
  | none => Except.error (PyErr.http 404 (name ++ " does not exist in source"))
  | some c =>
    if (fs.dirOf dst).present then
      let fs1 := fs.setFiles src (delA (fs.dirOf src).files name)
      Except.ok (fs1.setFiles dst (setA (fs1.dirOf dst).files name c))
    else Except.error (PyErr.pyexc ("FileNotFoundError"))

/-- `update_json_metadata` (move_images.py lines 41-64): 404 when the
source sidecar `<stem>.json` is absent; otherwise parse it, merge the
updates dict into it, write the merged object to the destination
(silently replacing any file of that name), and delete the source
sidecar — in that order. -/
def update_json_metadata (fs : FS) (src dst : Loc) (name : String) (updates : Obj) :
    Except PyErr (FS × List Ev) :=
  let mname := sideName name
  match getFile fs src mname with
  | none => Except.error (PyErr.http 404 ("JSON metadata for " ++ name ++ " not found"))
  | some (FContent.binary _) => Except.error (PyErr.pyexc ("JSONDecodeError"))
  | some (FContent.json data) =>
    if (fs.dirOf dst).present then
      let fs1 := fs.setFiles dst (setA (fs.dirOf dst).files mname
            (FContent.json (dictUpdate data updates)))
      let fs2 := fs1.setFiles src (delA (fs1.dirOf src).files mname)
      Except.ok (fs2, [Ev.writeSidecar dst mname, Ev.delSidecar src mname])
    else Except.error (PyErr.pyexc ("FileNotFoundError"))

/-- The patch of the to-trash transition (move_images.py line 97). -/
def trashPatch : Obj := [("trash", Val.bool true)]

/-- The patch of the to-picks transition (move_images.py line 136). -/
def picksPatch : Obj := [("rating", Val.num 5), ("pick", Val.bool true)]

/-- The patch of restore-from-trash (move_images.py line 204). -/
def restorePatch : Obj := [("trash", Val.bool false)]

/-- The patch of demote-pick (move_images.py line 242). -/
def demotePatch : Obj := [("pick", Val.bool false), ("rating", Val.num 4)]

/-- `move_to_trash` (move_images.py lines 66-103): ensure the base and
trash directories, move the image file pool → trash FIRST, then merge
`{trash: true}` into the sidecar and relocate it.  Any failure is
re-raised as a 500 and leaves the state the earlier steps produced. -/
def move_to_trash (fs0 : FS) (name : String) : FS × List Ev × Option PyErr :=
  let fs := (fs0.ensureDir Loc.pool).ensureDir Loc.trash
  match move_file fs Loc.pool Loc.trash name with
  | Except.error e => (fs, [], some (wrap e))
  | Except.ok fs1 =>
    match update_json_metadata fs1 Loc.pool Loc.trash name trashPatch with
    | Except.error e => (fs1, [Ev.movImage Loc.pool Loc.trash name], some (wrap e))
    | Except.ok (fs2, evs) => (fs2, Ev.movImage Loc.pool Loc.trash name :: evs, none)

/-- `move_to_picks` (move_images.py lines 105-142): like to-trash, the
image file is moved first, then the sidecar is merged and relocated. -/
def move_to_picks (fs0 : FS) (name : String) : FS × List Ev × Option PyErr :=
  let fs := (fs0.ensureDir Loc.pool).ensureDir Loc.picks
  match move_file fs Loc.pool Loc.picks name with
  | Except.error e => (fs, [], some (wrap e))
  | Except.ok fs1 =>
    match update_json_metadata fs1 Loc.pool Loc.picks name picksPatch with
    | Except.error e => (fs1, [Ev.movImage Loc.pool Loc.picks name], some (wrap e))
    | Except.ok (fs2, evs) => (fs2, Ev.movImage Loc.pool Loc.picks name :: evs, none)

/-- `restore_from_trash` (move_images.py lines 171-210): ensure the
base directory, 404 when the trash directory is absent, then move the
image file trash → pool first and the sidecar after. -/
def restore_from_trash (fs0 : FS) (name : String) : FS × List Ev × Option PyErr :=
  let fs := fs0.ensureDir Loc.pool
  if (fs.dirOf Loc.trash).present then
    match move_file fs Loc.trash Loc.pool name with
    | Except.error e => (fs, [], some (wrap e))
    | Except.ok fs1 =>
      match update_json_metadata fs1 Loc.trash Loc.pool name restorePatch with
      | Except.error e => (fs1, [Ev.movImage Loc.trash Loc.pool name], some (wrap e))
      | Except.ok (fs2, evs) => (fs2, Ev.movImage Loc.trash Loc.pool name :: evs, none)
  else (fs, [], some (wrap (PyErr.http 404 ("Trash directory does not exist"))))

/-- `demote_pick` (move_images.py lines 212-251): ensure the base
directory, 404 when the picks directory is absent, then — unlike the
other three transitions — merge and relocate the sidecar FIRST and
move the image file last. -/
def demote_pick (fs0 : FS) (name : String) : FS × List Ev × Option PyErr :=
  let fs := fs0.ensureDir Loc.pool
  if (fs.dirOf Loc.picks).present then
    match update_json_metadata fs Loc.picks Loc.pool name demotePatch with
    | Except.error e => (fs, [], some (wrap e))
    | Except.ok (fs1, evs) =>
      match move_file fs1 Loc.picks Loc.pool name with
      | Except.error e => (fs1, evs, some (wrap e))
      | Except.ok fs2 => (fs2, evs ++ [Ev.movImage Loc.picks Loc.pool name], none)
  else (fs, [], some (wrap (PyErr.http 404 ("Picks directory does not exist"))))

/-- The four named lifecycle transitions. -/
inductive Transition where
  | toTrash : Transition
  | toPicks : Transition
  | restoreFromTrash : Transition
  | demotePick : Transition
deriving DecidableEq

def runTransition : Transition → FS → String → FS × List Ev × Option PyErr
  | Transition.toTrash => move_to_trash
  | Transition.toPicks => move_to_picks
  | Transition.restoreFromTrash => restore_from_trash
  | Transition.demotePick => demote_pick

def srcOf : Transition → Loc
  | Transition.toTrash => Loc.pool
  | Transition.toPicks => Loc.pool
  | Transition.restoreFromTrash => Loc.trash
  | Transition.demotePick => Loc.picks

def dstOf : Transition → Loc
  | Transition.toTrash => Loc.trash
  | Transition.toPicks => Loc.picks
  | Transition.restoreFromTrash => Loc.pool
  | Transition.demotePick => Loc.pool

def patchOf : Transition → Obj
  | Transition.toTrash => trashPatch
  | Transition.toPicks => picksPatch
  | Transition.restoreFromTrash => restorePatch
  | Transition.demotePick => demotePatch

/-- The event sequence a successful run of each transition performs. -/
def traceOf (t : Transition) (name : String) : List Ev :=
  match t with
  | Transition.toTrash =>
    [Ev.movImage Loc.pool Loc.trash name, Ev.writeSidecar Loc.trash (sideName name),
     Ev.delSidecar Loc.pool (sideName name)]
  | Transition.toPicks =>
    [Ev.movImage Loc.pool Loc.picks name, Ev.writeSidecar Loc.picks (sideName name),
     Ev.delSidecar Loc.pool (sideName name)]
  | Transition.restoreFromTrash =>
    [Ev.movImage Loc.trash Loc.pool name, Ev.writeSidecar Loc.pool (sideName name),
     Ev.delSidecar Loc.trash (sideName name)]
  | Transition.demotePick =>
    [Ev.writeSidecar Loc.pool (sideName name), Ev.delSidecar Loc.picks (sideName name),
     Ev.movImage Loc.picks Loc.pool name]

def exceptDecEq {ε α : Type} [DecidableEq ε] [DecidableEq α] :
    (a b : Except ε α) → Decidable (a = b)
  | Except.ok a, Except.ok b => decidable_of_iff (a = b) (by simp)
  | Except.ok _, Except.error _ => isFalse (by simp)
  | Except.error _, Except.ok _ => isFalse (by simp)
  | Except.error e, Except.error f => decidable_of_iff (e = f) (by simp)

instance {ε α : Type} [DecidableEq ε] [DecidableEq α] : DecidableEq (Except ε α) :=
  exceptDecEq

/-- A metadata key is in need of backfilling when it is absent or bound
to null (images.py line 48). -/
def needsFill (m : Obj) (k : String) : Prop :=
  getA m k = none ∨ getA m k = some Val.null

instance (m : Obj) (k : String) : Decidable (needsFill m k) := by
  unfold needsFill
  infer_instance

theorem backfillOne_getA (m : Obj) (k0 k : String) :
    getA (backfillOne m k0) k =
      if k = k0 ∧ needsFill m k0 then some (Val.str "") else getA m k := by
  unfold backfillOne
  rcases h : getA m k0 with _ | v
  · by_cases hk : k = k0
    · subst hk
      simp [getA_setA_self, needsFill, h]
    · simp [getA_setA_ne _ _ _ _ hk, hk]
  · cases v with
    | null =>
      by_cases hk : k = k0
      · subst hk
        simp [getA_setA_self, needsFill, h]
      · simp [getA_setA_ne _ _ _ _ hk, hk]
    | bool b => simp [needsFill, h]
    | num n => simp [needsFill, h]
    | str s => simp [needsFill, h]

theorem backfillOne_of_not_needs (m : Obj) (k0 : String) (h : ¬ needsFill m k0) :
    backfillOne m k0 = m := by
  unfold backfillOne
  rcases hg : getA m k0 with _ | v
  · exact absurd (Or.inl hg) h
  · cases v with
    | null => exact absurd (Or.inr hg) h
    | bool b => rfl
    | num n => rfl
    | str s => rfl

theorem foldl_backfillOne_getA (ks : List String) (m : Obj) (k : String) :
    getA (ks.foldl backfillOne m) k =
      if k ∈ ks ∧ needsFill m k then some (Val.str "") else getA m k := by
  induction ks generalizing m with
  | nil => simp
  | cons k0 ks ih =>
    simp only [List.foldl_cons]
    rw [ih]
    by_cases hk : k = k0
    · subst hk
      by_cases hn : needsFill m k
      · have hge : getA (backfillOne m k) k = some (Val.str "") := by
          rw [backfillOne_getA]
          simp [hn]
        have hnn : ¬ needsFill (backfillOne m k) k := by
          simp [needsFill, hge]
        simp [hnn, hge, hn, List.mem_cons]
      · rw [backfillOne_of_not_needs m k hn]
        simp [hn]
    · have hge : getA (backfillOne m k0) k = getA m k := by
        rw [backfillOne_getA]
        simp [hk]
      have hni : needsFill (backfillOne m k0) k ↔ needsFill m k := by
        unfold needsFill
        rw [hge]
      simp only [hni, hge, List.mem_cons]
      by_cases hm : k ∈ ks <;> simp [hm, hk]

theorem foldl_backfillOne_id (ks : List String) (m : Obj)
    (h : ∀ k ∈ ks, ¬ needsFill m k) : ks.foldl backfillOne m = m := by
  induction ks with
  | nil => rfl
  | cons k0 ks ih =>
    simp only [List.foldl_cons]
    rw [backfillOne_of_not_needs m k0 (h k0 (List.mem_cons_self k0 ks))]
    exact ih (fun k hk => h k (List.mem_cons_of_mem k0 hk))

/-- Claim C9: `backfillMissingFields` (the field loop of
`update_json_if_needed`) is idempotent, and a single application sets
each of {trash, pick, rating, notes, prompt} that is absent or null to
the empty string while leaving every other binding unchanged. -/
theorem C9_backfill_idempotent :
    (∀ m : Obj, backfillMissingFields (backfillMissingFields m) = backfillMissingFields m) ∧
    (∀ (m : Obj) (k : String),
      getA (backfillMissingFields m) k =
        if k ∈ backfillKeys ∧ needsFill m k then some (Val.str "") else getA m k) := by
  constructor
  · intro m
    unfold backfillMissingFields
    apply foldl_backfillOne_id
    intro k hk
    have hg := foldl_backfillOne_getA backfillKeys m k
    by_cases hn : needsFill m k
    · rw [if_pos ⟨hk, hn⟩] at hg
      simp [needsFill, hg]
    · rw [if_neg (fun hc => hn hc.2)] at hg
      unfold needsFill at hn ⊢
      rw [hg]
      exact hn
  · intro m k
    exact foldl_backfillOne_getA backfillKeys m k

/-- Claim C4: for an asset file with no sidecar, `ensure_json_exists`
followed by a load yields exactly the default metadata record; when a
sidecar already exists, `ensure_json_exists` changes nothing. -/
theorem C4_ensure_sidecar (d : Dir) (name : String) (hp : d.present = true) :
    (getA d.files (sideName name) = none →
      load_metadata (ensure_json_exists d name) (sideName name) =
        Except.ok (defaultMetadata name)) ∧
    (∀ c, getA d.files (sideName name) = some c → ensure_json_exists d name = d) := by
  constructor
  · intro h
    unfold ensure_json_exists
    rw [h]
    unfold load_metadata
    simp [hp, getA_setA_self]
  · intro c h
    unfold ensure_json_exists
    rw [h]

/-- Claim C4 witness: a pool directory holding only the image
`a.png`. -/
theorem C4_witness :
    load_metadata (ensure_json_exists ⟨true, [("a.png", FContent.binary ("x"))]⟩ "a.png")
        (sideName "a.png") = Except.ok (defaultMetadata "a.png") :=
  (C4_ensure_sidecar ⟨true, [("a.png", FContent.binary ("x"))]⟩ "a.png" (by decide)).1
    (by decide)

/-- Claim C6 (amended): an unrecognized location tag does not fail with
a validation error — `get_target_directory` silently resolves every
tag other than picks/trash to the base (pool) directory, and the
operation behaves exactly as if no tag had been passed. -/
theorem C6_amended_unknown_tag (fs : FS) (filename : String)
    (d : Option String) (notes promptv : Option String)
    (h1 : d ≠ some "trash") (h2 : d ≠ some "picks") :
    update_metadata fs filename d notes promptv =
      update_metadata fs filename none notes promptv := by
  have ht : get_target_directory d = get_target_directory none := by
    unfold get_target_directory
    simp [h1, h2]
  unfold update_metadata
  rw [ht]

def fsC6 : FS :=
  ⟨⟨true, [("a.json", FContent.json [("filename", Val.str ("a.png")), ("notes", Val.str ("old"))])]⟩,
   ⟨true, []⟩, ⟨true, []⟩⟩

/-- Claim C6 counterexample: passing the unrecognized tag "bogus" to
`update_metadata` does not fail — it succeeds and edits the pool
sidecar. -/
theorem C6_counterexample :
    (update_metadata fsC6 "a.png" (some ("bogus")) (some ("new")) none).2 =
        Except.ok ("Metadata updated successfully") ∧
    getFile (update_metadata fsC6 "a.png" (some ("bogus")) (some ("new")) none).1
        Loc.pool "a.json" =
      some (FContent.json [("filename", Val.str ("a.png")), ("notes", Val.str ("new"))]) := by
  constructor <;> decide

/-- Claim C6 witness: the bogus tag behaves exactly like no tag. -/
theorem C6_witness :
    update_metadata fsC6 "a.png" (some ("bogus")) (some ("new")) none =
      update_metadata fsC6 "a.png" none (some ("new")) none :=
  C6_amended_unknown_tag fsC6 "a.png" (some ("bogus")) (some ("new")) none
    (by decide) (by decide)

/-- Claim C7 (amended): scanner-level listings over a non-existent
directory yield an empty sequence, and the trash/picks listings yield
an empty sequence when their location subdirectory is absent; but when
the base directory itself is absent those listings fail (the 404 is
re-raised as a 500) instead of yielding an empty sequence. -/
theorem C7_amended_missing_dirs (d : Dir) (fs : FS)
    (hd : d.present = false) (hp : fs.pool.present = true)
    (ht : fs.trash.present = false) (hk : fs.picks.present = false) :
    collect_json_files d = [] ∧ scanDir d = (d, none) ∧
    get_trash_images fs = Except.ok [] ∧ get_pick_images fs = Except.ok [] := by
  refine ⟨?_, ?_, ?_, ?_⟩
  · simp [collect_json_files, hd]
  · simp [scanDir, hd]
  · simp [get_trash_images, hp, collect_json_files, ht, process_json_metadata, wrapE]
  · simp [get_pick_images, hp, collect_json_files, hk, process_json_metadata, wrapE]

/-- Claim C7 witness: base present, picks and trash absent. -/
theorem C7_witness :
    collect_json_files ⟨false, []⟩ = [] ∧ scanDir ⟨false, []⟩ = (⟨false, []⟩, none) ∧
    get_trash_images ⟨⟨true, []⟩, ⟨false, []⟩, ⟨false, []⟩⟩ = Except.ok [] ∧
    get_pick_images ⟨⟨true, []⟩, ⟨false, []⟩, ⟨false, []⟩⟩ = Except.ok [] :=
  C7_amended_missing_dirs ⟨false, []⟩ ⟨⟨true, []⟩, ⟨false, []⟩, ⟨false, []⟩⟩
    (by decide) (by decide) (by decide) (by decide)

def fsC7 : FS :=
  ⟨⟨false, []⟩, ⟨true, []⟩, ⟨true, [("t.json", FContent.json [("trash", Val.bool true)])]⟩⟩

/-- Claim C7 counterexample: with the base directory absent, the trash
listing is an error (a 500 wrapping the 404), not an empty sequence. -/
theorem C7_counterexample :
    get_trash_images fsC7 = Except.error (PyErr.http 500 ("Base directory does not exist")) := by
  decide

theorem wrapE_ok {α : Type} (x : Except PyErr α) (a : α)
    (h : wrapE x = Except.ok a) : x = Except.ok a := by
  cases x with
  | ok b => simpa [wrapE] using h
  | error e => simp [wrapE] at h

/-- The parsed objects among a list of files. -/
def jsonObjs (files : List (String × FContent)) : List Obj :=
  files.filterMap
    (fun f => match f.2 with | FContent.json m => some m | FContent.binary _ => none)

theorem sidecarObjs_eq (d : Dir) : sidecarObjs d = jsonObjs (collect_json_files d) := rfl

theorem process_filter_sound (files : List (String × FContent)) (f : Obj → Bool)
    (ms : List Obj) (h : process_json_metadata files (some f) = Except.ok ms) :
    ∀ m ∈ ms, f m = true ∧ m ∈ jsonObjs files := by
  induction files generalizing ms with
  | nil =>
    unfold process_json_metadata at h
    obtain rfl : ([] : List Obj) = ms := by simpa using h
    intro m hm
    simp at hm
  | cons hd rest ih =>
    obtain ⟨nm, c⟩ := hd
    cases c with
    | binary b =>
      unfold process_json_metadata at h
      simp at h
    | json m0 =>
      unfold process_json_metadata at h
      rcases hr : process_json_metadata rest (some f) with e | ms'
      · rw [hr] at h
        simp at h
      · rw [hr] at h
        by_cases hf : f m0 = true
        · obtain rfl : m0 :: ms' = ms := by simpa [hf] using h
          intro m hm
          rcases List.mem_cons.mp hm with rfl | hm'
          · exact ⟨hf, by simp [jsonObjs]⟩
          · obtain ⟨h1, h2⟩ := ih ms' hr m hm'
            exact ⟨h1, by simp [jsonObjs]; right; simpa [jsonObjs] using h2⟩
        · obtain rfl : ms' = ms := by simpa [hf] using h
          intro m hm
          obtain ⟨h1, h2⟩ := ih _ hr m hm
          exact ⟨h1, by simp [jsonObjs]; right; simpa [jsonObjs] using h2⟩

/-- A value bound at a key is either not truthy or is the boolean
`true`; the system itself only ever writes `true`, `false`, `null` or
the backfilled `""` there, all of which satisfy this. -/
def boolTyped (k : String) (m : Obj) : Bool :=
  match getA m k with
  | none => true
  | some v => !(pyTruthy v) || (v == Val.bool true)

theorem boolTyped_elim (k : String) (m : Obj) (v : Val) (ht : boolTyped k m = true)
    (hg : getA m k = some v) (htr : pyTruthy v = true) : v = Val.bool true := by
  unfold boolTyped at ht
  rw [hg] at ht
  simp [htr] at ht
  exact ht

/-- Claim C5: under the data model's typing of the `trash`/`pick`
fields (a truthy value there is the boolean `true`), `get_trash_images`
returns only entries whose `trash` field is `true` and
`get_pick_images` only entries whose `pick` field is `true`, and every
returned entry is one of the corresponding location's sidecar
objects. -/
theorem C5_filter_correct (fs : FS) (hp : fs.pool.present = true)
    (htr : ∀ m ∈ sidecarObjs fs.trash, boolTyped "trash" m = true)
    (hpk : ∀ m ∈ sidecarObjs fs.picks, boolTyped "pick" m = true) :
    (∀ ms, get_trash_images fs = Except.ok ms →
      ∀ m ∈ ms, getA m "trash" = some (Val.bool true) ∧ m ∈ sidecarObjs fs.trash) ∧
    (∀ ms, get_pick_images fs = Except.ok ms →
      ∀ m ∈ ms, getA m "pick" = some (Val.bool true) ∧ m ∈ sidecarObjs fs.picks) := by
  constructor
  · intro ms h m hm
    unfold get_trash_images at h
    rw [if_pos hp] at h
    have h' := wrapE_ok _ _ h
    obtain ⟨hf, hmem⟩ := process_filter_sound _ _ _ h' m hm
    rw [← sidecarObjs_eq] at hmem
    unfold trashFilter at hf
    rcases hg : getA m "trash" with _ | v
    · rw [hg] at hf
      cases hf
    · rw [hg] at hf
      have hv := boolTyped_elim "trash" m v (htr m hmem) hg hf
      refine ⟨?_, hmem⟩
      rw [hv]
  · intro ms h m hm
    unfold get_pick_images at h
    rw [if_pos hp] at h
    have h' := wrapE_ok _ _ h
    obtain ⟨hf, hmem⟩ := process_filter_sound _ _ _ h' m hm
    rw [← sidecarObjs_eq] at hmem
    unfold pickFilter at hf
    rcases hg : getA m "pick" with _ | v
    · rw [hg] at hf
      cases hf
    · rw [hg] at hf
      have hv := boolTyped_elim "pick" m v (hpk m hmem) hg hf
      refine ⟨?_, hmem⟩
      rw [hv]

def fsC5 : FS :=
  ⟨⟨true, []⟩,
   ⟨true, [("p.json", FContent.json [("pick", Val.bool true)]),
           ("q.json", FContent.json [("pick", Val.null)])]⟩,
   ⟨true, [("t.json", FContent.json [("trash", Val.bool true)]),
           ("u.json", FContent.json [("trash", Val.str (""))]),
           ("v.json", FContent.json [("notes", Val.str ("x"))]),
           ("w.json", FContent.json [("trash", Val.bool false)])]⟩⟩

/-- Claim C5 witness: a trash directory with a kept entry and three
filtered-out entries, and a picks directory with one of each. -/
theorem C5_witness :
    (∀ ms, get_trash_images fsC5 = Except.ok ms →
      ∀ m ∈ ms, getA m "trash" = some (Val.bool true) ∧ m ∈ sidecarObjs fsC5.trash) ∧
    (∀ ms, get_pick_images fsC5 = Except.ok ms →
      ∀ m ∈ ms, getA m "pick" = some (Val.bool true) ∧ m ∈ sidecarObjs fsC5.picks) :=
  C5_filter_correct fsC5 (by decide) (by decide) (by decide)

/-- Claim C8: a successful `update_metadata` overwrites `notes` only
when the caller supplied a notes value and `prompt` only when the
caller supplied a prompt value; an absent argument leaves the field
untouched, and every other binding of the sidecar is unchanged. -/
theorem C8_update_annotation (fs : FS) (filename : String)
    (d : Option String) (notes promptv : Option String) (m : Obj)
    (hp : fs.pool.present = true)
    (hm : getFile fs (get_target_directory d) (sideName filename) = some (FContent.json m)) :
    (update_metadata fs filename d notes promptv).2 =
        Except.ok ("Metadata updated successfully") ∧
    getFile (update_metadata fs filename d notes promptv).1
        (get_target_directory d) (sideName filename) =
      some (FContent.json (updAnn m notes promptv)) ∧
    getA (updAnn m notes promptv) "notes" =
      (match notes with | some s => some (Val.str s) | none => getA m "notes") ∧
    getA (updAnn m notes promptv) "prompt" =
      (match promptv with | some s => some (Val.str s) | none => getA m "prompt") ∧
    (∀ k, k ≠ "notes" → k ≠ "prompt" → getA (updAnn m notes promptv) k = getA m k) := by
  have hpres : (fs.dirOf (get_target_directory d)).present = true := by
    by_contra hc
    simp [getFile, hc] at hm
  have hrun : update_metadata fs filename d notes promptv =
      (fs.setFiles (get_target_directory d)
         (setA (fs.dirOf (get_target_directory d)).files (sideName filename)
           (FContent.json (updAnn m notes promptv))),
       Except.ok ("Metadata updated successfully")) := by
    simp only [update_metadata, hp, if_true]
    rw [hm]
  rw [hrun]
  refine ⟨rfl, ?_, ?_, ?_, ?_⟩
  · simp [getFile, FS.setFiles, dirOf_setDir, hpres, getA_setA_self]
  · rcases notes with _ | s <;> rcases promptv with _ | s' <;>
      simp [updAnn, getA_setA_self,
        getA_setA_ne _ _ _ _ (by decide : ("notes" : String) ≠ "prompt")]
  · rcases notes with _ | s <;> rcases promptv with _ | s' <;>
      simp [updAnn, getA_setA_self,
        getA_setA_ne _ _ _ _ (by decide : ("prompt" : String) ≠ "notes")]
  · intro k hk1 hk2
    rcases notes with _ | s <;> rcases promptv with _ | s' <;>
      simp [updAnn, getA_setA_ne _ _ _ _ hk1, getA_setA_ne _ _ _ _ hk2]

def fsC8 : FS :=
  ⟨⟨true, []⟩,
   ⟨true, [("a.json", FContent.json
      [("filename", Val.str ("a.png")), ("trash", Val.bool false), ("pick", Val.bool true),
       ("rating", Val.num 5), ("notes", Val.str ("old")), ("prompt", Val.str ("p0"))])]⟩,
   ⟨true, []⟩⟩

/-- Claim C8 witness: notes supplied, prompt absent, on a picks
sidecar. -/
theorem C8_witness :
    (update_metadata fsC8 "a.png" (some ("picks")) (some ("new notes")) none).2 =
        Except.ok ("Metadata updated successfully") ∧
    getFile (update_metadata fsC8 "a.png" (some ("picks")) (some ("new notes")) none).1
        (get_target_directory (some ("picks"))) (sideName "a.png") =
      some (FContent.json (updAnn
        [("filename", Val.str ("a.png")), ("trash", Val.bool false), ("pick", Val.bool true),
         ("rating", Val.num 5), ("notes", Val.str ("old")), ("prompt", Val.str ("p0"))]
        (some ("new notes")) none)) ∧
    getA (updAnn
        [("filename", Val.str ("a.png")), ("trash", Val.bool false), ("pick", Val.bool true),
         ("rating", Val.num 5), ("notes", Val.str ("old")), ("prompt", Val.str ("p0"))]
        (some ("new notes")) none) "notes" = some (Val.str ("new notes")) ∧
    getA (updAnn
        [("filename", Val.str ("a.png")), ("trash", Val.bool false), ("pick", Val.bool true),
         ("rating", Val.num 5), ("notes", Val.str ("old")), ("prompt", Val.str ("p0"))]
        (some ("new notes")) none) "prompt" =
      getA [("filename", Val.str ("a.png")), ("trash", Val.bool false), ("pick", Val.bool true),
            ("rating", Val.num 5), ("notes", Val.str ("old")), ("prompt", Val.str ("p0"))]
        "prompt" ∧
    (∀ k, k ≠ "notes" → k ≠ "prompt" →
      getA (updAnn
        [("filename", Val.str ("a.png")), ("trash", Val.bool false), ("pick", Val.bool true),
         ("rating", Val.num 5), ("notes", Val.str ("old")), ("prompt", Val.str ("p0"))]
        (some ("new notes")) none) k =
      getA [("filename", Val.str ("a.png")), ("trash", Val.bool false), ("pick", Val.bool true),
            ("rating", Val.num 5), ("notes", Val.str ("old")), ("prompt", Val.str ("p0"))] k) :=
  C8_update_annotation fsC8 "a.png" (some ("picks")) (some ("new notes")) none
    [("filename", Val.str ("a.png")), ("trash", Val.bool false), ("pick", Val.bool true),
     ("rating", Val.num 5), ("notes", Val.str ("old")), ("prompt", Val.str ("p0"))]
    (by decide) (by decide)

theorem ensureDir_of_present (fs : FS) (l : Loc) (h : (fs.dirOf l).present = true) :
    fs.ensureDir l = fs := by
  simp [FS.ensureDir, h]

theorem ensure_pool_trash (fs : FS) (hpp : fs.pool.present = true) :
    ∃ T, (fs.ensureDir Loc.pool).ensureDir Loc.trash = ⟨fs.pool, fs.picks, ⟨true, T⟩⟩ ∧
      (fs.trash.present = true → T = fs.trash.files) ∧
      (fs.trash.present = false → T = []) := by
  rw [ensureDir_of_present fs Loc.pool hpp]
  by_cases hT : fs.trash.present = true
  · refine ⟨fs.trash.files, ?_, fun _ => rfl, fun hc => by rw [hc] at hT; cases hT⟩
    rw [ensureDir_of_present fs Loc.trash hT]
    have hd : (⟨true, fs.trash.files⟩ : Dir) = fs.trash := by rw [← hT]
    rw [hd]
  · refine ⟨[], ?_, fun hc => absurd hc hT, fun _ => rfl⟩
    simp [FS.ensureDir, FS.dirOf, hT, FS.setDir]

theorem ensure_pool_picks (fs : FS) (hpp : fs.pool.present = true) :
    ∃ P, (fs.ensureDir Loc.pool).ensureDir Loc.picks = ⟨fs.pool, ⟨true, P⟩, fs.trash⟩ ∧
      (fs.picks.present = true → P = fs.picks.files) ∧
      (fs.picks.present = false → P = []) := by
  rw [ensureDir_of_present fs Loc.pool hpp]
  by_cases hP : fs.picks.present = true
  · refine ⟨fs.picks.files, ?_, fun _ => rfl, fun hc => by rw [hc] at hP; cases hP⟩
    rw [ensureDir_of_present fs Loc.picks hP]
    have hd : (⟨true, fs.picks.files⟩ : Dir) = fs.picks := by rw [← hP]
    rw [hd]
  · refine ⟨[], ?_, fun hc => absurd hc hP, fun _ => rfl⟩
    simp [FS.ensureDir, FS.dirOf, hP, FS.setDir]

theorem ensure_pool_only (fs : FS) :
    ∃ P, fs.ensureDir Loc.pool = ⟨⟨true, P⟩, fs.picks, fs.trash⟩ ∧
      (fs.pool.present = true → P = fs.pool.files) ∧
      (fs.pool.present = false → P = []) := by
  by_cases hp : fs.pool.present = true
  · refine ⟨fs.pool.files, ?_, fun _ => rfl, fun hc => by rw [hc] at hp; cases hp⟩
    rw [ensureDir_of_present fs Loc.pool hp]
    have hd : (⟨true, fs.pool.files⟩ : Dir) = fs.pool := by rw [← hp]
    rw [hd]
  · refine ⟨[], ?_, fun hc => absurd hc hp, fun _ => rfl⟩
    simp [FS.ensureDir, FS.dirOf, hp, FS.setDir]

theorem to_trash_spec (fs : FS) (name : String) (ic : FContent) (old : Obj)
    (h1 : getFile fs Loc.pool name = some ic)
    (h2 : getFile fs Loc.pool (sideName name) = some (FContent.json old))
    (h3 : sideName name ≠ name) :
    ∃ fs1, move_to_trash fs name = (fs1, traceOf Transition.toTrash name, none) ∧
      getFile fs1 Loc.trash name = some ic ∧
      getFile fs1 Loc.trash (sideName name) =
        some (FContent.json (dictUpdate old trashPatch)) := by
  have hpp : fs.pool.present = true := by
    by_contra hc
    simp [getFile, FS.dirOf, hc] at h1
  have h1' : getA fs.pool.files name = some ic := by
    simpa [getFile, FS.dirOf, hpp] using h1
  have h2' : getA (delA fs.pool.files name) (sideName name) = some (FContent.json old) := by
    rw [getA_delA_ne _ _ _ h3]
    simpa [getFile, FS.dirOf, hpp] using h2
  obtain ⟨T, hE, -, -⟩ := ensure_pool_trash fs hpp
  refine ⟨⟨⟨fs.pool.present, delA (delA fs.pool.files name) (sideName name)⟩, fs.picks,
    ⟨true, setA (setA T name ic) (sideName name)
      (FContent.json (dictUpdate old trashPatch))⟩⟩, ?_, ?_, ?_⟩
  · simp only [move_to_trash]
    rw [hE]
    simp [move_file, update_json_metadata, getFile, FS.dirOf, FS.setFiles, FS.setDir,
      hpp, h1', h2', traceOf]
  · simp [getFile, FS.dirOf, getA_setA_ne _ _ _ _ (Ne.symm h3), getA_setA_self]
  · simp [getFile, FS.dirOf, getA_setA_self]

theorem to_picks_spec (fs : FS) (name : String) (ic : FContent) (old : Obj)
    (h1 : getFile fs Loc.pool name = some ic)
    (h2 : getFile fs Loc.pool (sideName name) = some (FContent.json old))
    (h3 : sideName name ≠ name) :
    ∃ fs1, move_to_picks fs name = (fs1, traceOf Transition.toPicks name, none) ∧
      getFile fs1 Loc.picks name = some ic ∧
      getFile fs1 Loc.picks (sideName name) =
        some (FContent.json (dictUpdate old picksPatch)) := by
  have hpp : fs.pool.present = true := by
    by_contra hc
    simp [getFile, FS.dirOf, hc] at h1
  have h1' : getA fs.pool.files name = some ic := by
    simpa [getFile, FS.dirOf, hpp] using h1
  have h2' : getA (delA fs.pool.files name) (sideName name) = some (FContent.json old) := by
    rw [getA_delA_ne _ _ _ h3]
    simpa [getFile, FS.dirOf, hpp] using h2
  obtain ⟨P, hE, -, -⟩ := ensure_pool_picks fs hpp
  refine ⟨⟨⟨fs.pool.present, delA (delA fs.pool.files name) (sideName name)⟩,
    ⟨true, setA (setA P name ic) (sideName name)
      (FContent.json (dictUpdate old picksPatch))⟩, fs.trash⟩, ?_, ?_, ?_⟩
  · simp only [move_to_picks]
    rw [hE]
    simp [move_file, update_json_metadata, getFile, FS.dirOf, FS.setFiles, FS.setDir,
      hpp, h1', h2', traceOf]
  · simp [getFile, FS.dirOf, getA_setA_ne _ _ _ _ (Ne.symm h3), getA_setA_self]
  · simp [getFile, FS.dirOf, getA_setA_self]

theorem restore_spec (fs : FS) (name : String) (ic : FContent) (old : Obj)
    (h1 : getFile fs Loc.trash name = some ic)
    (h2 : getFile fs Loc.trash (sideName name) = some (FContent.json old))
    (h3 : sideName name ≠ name) :
    ∃ fs1, restore_from_trash fs name = (fs1, traceOf Transition.restoreFromTrash name, none) ∧
      getFile fs1 Loc.pool name = some ic ∧
      getFile fs1 Loc.pool (sideName name) =
        some (FContent.json (dictUpdate old restorePatch)) := by
  have htp : fs.trash.present = true := by
    by_contra hc
    simp [getFile, FS.dirOf, hc] at h1
  have h1' : getA fs.trash.files name = some ic := by
    simpa [getFile, FS.dirOf, htp] using h1
  have h2' : getA (delA fs.trash.files name) (sideName name) = some (FContent.json old) := by
    rw [getA_delA_ne _ _ _ h3]
    simpa [getFile, FS.dirOf, htp] using h2
  obtain ⟨P, hE, -, -⟩ := ensure_pool_only fs
  refine ⟨⟨⟨true, setA (setA P name ic) (sideName name)
      (FContent.json (dictUpdate old restorePatch))⟩, fs.picks,
    ⟨fs.trash.present, delA (delA fs.trash.files name) (sideName name)⟩⟩, ?_, ?_, ?_⟩
  · simp only [restore_from_trash]
    rw [hE]
    simp [move_file, update_json_metadata, getFile, FS.dirOf, FS.setFiles, FS.setDir,
      htp, h1', h2', traceOf]
  · simp [getFile, FS.dirOf, getA_setA_ne _ _ _ _ (Ne.symm h3), getA_setA_self]
  · simp [getFile, FS.dirOf, getA_setA_self]

theorem demote_spec (fs : FS) (name : String) (ic : FContent) (old : Obj)
    (h1 : getFile fs Loc.picks name = some ic)
    (h2 : getFile fs Loc.picks (sideName name) = some (FContent.json old))
    (h3 : sideName name ≠ name) :
    ∃ fs1, demote_pick fs name = (fs1, traceOf Transition.demotePick name, none) ∧
      getFile fs1 Loc.pool name = some ic ∧
      getFile fs1 Loc.pool (sideName name) =
        some (FContent.json (dictUpdate old demotePatch)) := by
  have hkp : fs.picks.present = true := by
    by_contra hc
    simp [getFile, FS.dirOf, hc] at h1
  have h2' : getA fs.picks.files (sideName name) = some (FContent.json old) := by
    simpa [getFile, FS.dirOf, hkp] using h2
  have h1' : getA (delA fs.picks.files (sideName name)) name = some ic := by
    rw [getA_delA_ne _ _ _ (Ne.symm h3)]
    simpa [getFile, FS.dirOf, hkp] using h1
  obtain ⟨P, hE, -, -⟩ := ensure_pool_only fs
  refine ⟨⟨⟨true, setA (setA P (sideName name)
      (FContent.json (dictUpdate old demotePatch))) name ic⟩,
    ⟨fs.picks.present, delA (delA fs.picks.files (sideName name)) name⟩, fs.trash⟩, ?_, ?_, ?_⟩
  · simp only [demote_pick]
    rw [hE]
    simp [move_file, update_json_metadata, getFile, FS.dirOf, FS.setFiles, FS.setDir,
      hkp, h1', h2', traceOf]
  · simp [getFile, FS.dirOf, getA_setA_self]
  · simp [getFile, FS.dirOf, getA_setA_ne _ _ _ _ h3, getA_setA_self]

theorem getA_trashPatch_merge (old : Obj) (k : String) :
    getA (dictUpdate old trashPatch) k =
      match getA trashPatch k with
      | some v => some v
      | none => getA old k := by
  by_cases h : k = "trash"
  · subst h
    simp [dictUpdate, trashPatch, getA_setA_self, getA]
  · have h2 : ¬ ("trash" : String) = k := fun hc => h hc.symm
    simp [dictUpdate, trashPatch, getA_setA_ne _ _ _ _ h, getA, h2]

theorem getA_picksPatch_merge (old : Obj) (k : String) :
    getA (dictUpdate old picksPatch) k =
      match getA picksPatch k with
      | some v => some v
      | none => getA old k := by
  by_cases hp : k = "pick"
  · subst hp
    simp [dictUpdate, picksPatch, getA_setA_self, getA]
  · have hp2 : ¬ ("pick" : String) = k := fun hc => hp hc.symm
    by_cases hr : k = "rating"
    · subst hr
      simp [dictUpdate, picksPatch, getA_setA_ne _ _ _ _ hp, getA_setA_self, getA, hp2]
    · have hr2 : ¬ ("rating" : String) = k := fun hc => hr hc.symm
      simp [dictUpdate, picksPatch, getA_setA_ne _ _ _ _ hp, getA_setA_ne _ _ _ _ hr,
        getA, hp2, hr2]

theorem getA_restorePatch_merge (old : Obj) (k : String) :
    getA (dictUpdate old restorePatch) k =
      match getA restorePatch k with
      | some v => some v
      | none => getA old k := by
  by_cases h : k = "trash"
  · subst h
    simp [dictUpdate, restorePatch, getA_setA_self, getA]
  · have h2 : ¬ ("trash" : String) = k := fun hc => h hc.symm
    simp [dictUpdate, restorePatch, getA_setA_ne _ _ _ _ h, getA, h2]

theorem getA_demotePatch_merge (old : Obj) (k : String) :
    getA (dictUpdate old demotePatch) k =
      match getA demotePatch k with
      | some v => some v
      | none => getA old k := by
  by_cases hr : k = "rating"
  · subst hr
    simp [dictUpdate, demotePatch, getA_setA_self, getA]
  · have hr2 : ¬ ("rating" : String) = k := fun hc => hr hc.symm
    by_cases hp : k = "pick"
    · subst hp
      simp [dictUpdate, demotePatch, getA_setA_ne _ _ _ _ hr, getA_setA_self, getA, hr2]
    · have hp2 : ¬ ("pick" : String) = k := fun hc => hp hc.symm
      simp [dictUpdate, demotePatch, getA_setA_ne _ _ _ _ hr, getA_setA_ne _ _ _ _ hp,
        getA, hp2, hr2]

/-- Claim C3: after a successful run of any of the four transitions,
the destination sidecar is exactly the pre-transition source sidecar
with the transition's patch keys overwritten; every key not in the
patch is preserved verbatim. -/
theorem C3_patch_correct (t : Transition) (fs : FS) (name : String)
    (ic : FContent) (old : Obj)
    (h1 : getFile fs (srcOf t) name = some ic)
    (h2 : getFile fs (srcOf t) (sideName name) = some (FContent.json old))
    (h3 : sideName name ≠ name) :
    ∃ fs1, runTransition t fs name = (fs1, traceOf t name, none) ∧
      getFile fs1 (dstOf t) (sideName name) =
        some (FContent.json (dictUpdate old (patchOf t))) ∧
      (∀ k, getA (dictUpdate old (patchOf t)) k =
        match getA (patchOf t) k with
        | some v => some v
        | none => getA old k) := by
  cases t with
  | toTrash =>
    obtain ⟨fs1, hrun, -, hside⟩ := to_trash_spec fs name ic old h1 h2 h3
    exact ⟨fs1, hrun, hside, fun k => getA_trashPatch_merge old k⟩
  | toPicks =>
    obtain ⟨fs1, hrun, -, hside⟩ := to_picks_spec fs name ic old h1 h2 h3
    exact ⟨fs1, hrun, hside, fun k => getA_picksPatch_merge old k⟩
  | restoreFromTrash =>
    obtain ⟨fs1, hrun, -, hside⟩ := restore_spec fs name ic old h1 h2 h3
    exact ⟨fs1, hrun, hside, fun k => getA_restorePatch_merge old k⟩
  | demotePick =>
    obtain ⟨fs1, hrun, -, hside⟩ := demote_spec fs name ic old h1 h2 h3
    exact ⟨fs1, hrun, hside, fun k => getA_demotePatch_merge old k⟩

def fsC3 : FS :=
  ⟨⟨true, [("a.png", FContent.binary ("imgbytes")),
           ("a.json", FContent.json
             [("filename", Val.str ("a.png")), ("pick", Val.bool false),
              ("rating", Val.null), ("notes", Val.str ("keep me"))])]⟩,
   ⟨true, []⟩, ⟨true, []⟩⟩

/-- Claim C3 witness: the spec's scenario — `to-picks` on a pool asset
whose sidecar has `pick: false` and `rating: null`. -/
theorem C3_witness :
    ∃ fs1, runTransition Transition.toPicks fsC3 "a.png" =
        (fs1, traceOf Transition.toPicks "a.png", none) ∧
      getFile fs1 (dstOf Transition.toPicks) (sideName "a.png") =
        some (FContent.json (dictUpdate
          [("filename", Val.str ("a.png")), ("pick", Val.bool false),
           ("rating", Val.null), ("notes", Val.str ("keep me"))]
          (patchOf Transition.toPicks))) ∧
      (∀ k, getA (dictUpdate
          [("filename", Val.str ("a.png")), ("pick", Val.bool false),
           ("rating", Val.null), ("notes", Val.str ("keep me"))]
          (patchOf Transition.toPicks)) k =
        match getA (patchOf Transition.toPicks) k with
        | some v => some v
        | none => getA [("filename", Val.str ("a.png")), ("pick", Val.bool false),
                        ("rating", Val.null), ("notes", Val.str ("keep me"))] k) :=
  C3_patch_correct Transition.toPicks fsC3 "a.png" (FContent.binary ("imgbytes"))
    [("filename", Val.str ("a.png")), ("pick", Val.bool false),
     ("rating", Val.null), ("notes", Val.str ("keep me"))]
    (by decide) (by decide) (by decide)

/-- Claim C10: when the destination already holds an image file and a
sidecar under the asset's names, every transition still succeeds — no
pre-existence check is made — and the destination files are silently
replaced by the moved asset's image and merged sidecar. -/
theorem C10_silent_overwrite (t : Transition) (fs : FS) (name : String)
    (ic oldImg oldSide : FContent) (old : Obj)
    (h1 : getFile fs (srcOf t) name = some ic)
    (h2 : getFile fs (srcOf t) (sideName name) = some (FContent.json old))
    (h3 : sideName name ≠ name)
    (h4 : getFile fs (dstOf t) name = some oldImg)
    (h5 : getFile fs (dstOf t) (sideName name) = some oldSide) :
    ∃ fs1, runTransition t fs name = (fs1, traceOf t name, none) ∧
      getFile fs1 (dstOf t) name = some ic ∧
      getFile fs1 (dstOf t) (sideName name) =
        some (FContent.json (dictUpdate old (patchOf t))) := by
  cases t with
  | toTrash => exact to_trash_spec fs name ic old h1 h2 h3
  | toPicks => exact to_picks_spec fs name ic old h1 h2 h3
  | restoreFromTrash => exact restore_spec fs name ic old h1 h2 h3
  | demotePick => exact demote_spec fs name ic old h1 h2 h3

def fsC10 : FS :=
  ⟨⟨true, [("a.png", FContent.binary ("newimg")),
           ("a.json", FContent.json [("filename", Val.str ("a.png"))])]⟩,
   ⟨true, []⟩,
   ⟨true, [("a.png", FContent.binary ("stale")),
           ("a.json", FContent.json [("filename", Val.str ("stale"))])]⟩⟩

/-- Claim C10 witness: `to-trash` with both destination files already
present; they are silently replaced. -/
theorem C10_witness :
    ∃ fs1, runTransition Transition.toTrash fsC10 "a.png" =
        (fs1, traceOf Transition.toTrash "a.png", none) ∧
      getFile fs1 (dstOf Transition.toTrash) "a.png" =
        some (FContent.binary ("newimg")) ∧
      getFile fs1 (dstOf Transition.toTrash) (sideName "a.png") =
        some (FContent.json (dictUpdate [("filename", Val.str ("a.png"))]
          (patchOf Transition.toTrash))) :=
  C10_silent_overwrite Transition.toTrash fsC10 "a.png" (FContent.binary ("newimg"))
    (FContent.binary ("stale")) (FContent.json [("filename", Val.str ("stale"))])
    [("filename", Val.str ("a.png"))]
    (by decide) (by decide) (by decide) (by decide) (by decide)

theorem update_json_metadata_events (fs : FS) (src dst : Loc) (name : String)
    (u : Obj) (p : FS × List Ev)
    (h : update_json_metadata fs src dst name u = Except.ok p) :
    p.2 = [Ev.writeSidecar dst (sideName name), Ev.delSidecar src (sideName name)] := by
  simp only [update_json_metadata] at h
  split at h
  · simp at h
  · simp at h
  · split at h
    · simp only [Except.ok.injEq] at h
      rw [← h]
    · simp at h

theorem to_trash_trace (fs : FS) (name : String) (fs1 : FS) (tr : List Ev)
    (h : move_to_trash fs name = (fs1, tr, none)) :
    tr = traceOf Transition.toTrash name := by
  simp only [move_to_trash] at h
  split at h
  · simp at h
  · split at h
    · simp at h
    · rename_i fs2 p heq
      have hev2 : p = [Ev.writeSidecar _ (sideName name), Ev.delSidecar _ (sideName name)] :=
        update_json_metadata_events _ _ _ _ _ _ heq
      simp only [Prod.mk.injEq] at h
      rw [← h.2.1, hev2]
      rfl

theorem to_picks_trace (fs : FS) (name : String) (fs1 : FS) (tr : List Ev)
    (h : move_to_picks fs name = (fs1, tr, none)) :
    tr = traceOf Transition.toPicks name := by
  simp only [move_to_picks] at h
  split at h
  · simp at h
  · split at h
    · simp at h
    · rename_i fs2 p heq
      have hev2 : p = [Ev.writeSidecar _ (sideName name), Ev.delSidecar _ (sideName name)] :=
        update_json_metadata_events _ _ _ _ _ _ heq
      simp only [Prod.mk.injEq] at h
      rw [← h.2.1, hev2]
      rfl

theorem restore_trace (fs : FS) (name : String) (fs1 : FS) (tr : List Ev)
    (h : restore_from_trash fs name = (fs1, tr, none)) :
    tr = traceOf Transition.restoreFromTrash name := by
  simp only [restore_from_trash] at h
  split at h
  · split at h
    · simp at h
    · split at h
      · simp at h
      · rename_i fs2 p heq
        have hev2 : p = [Ev.writeSidecar _ (sideName name), Ev.delSidecar _ (sideName name)] :=
        update_json_metadata_events _ _ _ _ _ _ heq
        simp only [Prod.mk.injEq] at h
        rw [← h.2.1, hev2]
        rfl
  · simp at h

theorem demote_trace (fs : FS) (name : String) (fs1 : FS) (tr : List Ev)
    (h : demote_pick fs name = (fs1, tr, none)) :
    tr = traceOf Transition.demotePick name := by
  simp only [demote_pick] at h
  split at h
  · split at h
    · simp at h
    · rename_i fs2 p heq
      split at h
      · simp at h
      · have hev2 : p = [Ev.writeSidecar _ (sideName name), Ev.delSidecar _ (sideName name)] :=
        update_json_metadata_events _ _ _ _ _ _ heq
        simp only [Prod.mk.injEq] at h
        rw [← h.2.1, hev2]
        rfl
  · simp at h

/-- Claim C1 (amended): only demote-pick performs the steps in the
spec's order — merged sidecar written, source sidecar deleted, image
file moved last; to-trash, to-picks and restore-from-trash move the
image file FIRST and handle the sidecar afterwards. -/
theorem C1_amended_step_order (t : Transition) (fs : FS) (name : String)
    (fs1 : FS) (tr : List Ev)
    (h : runTransition t fs name = (fs1, tr, none)) :
    tr = traceOf t name ∧
    (t = Transition.demotePick →
      tr.getLast? = some (Ev.movImage (srcOf t) (dstOf t) name)) ∧
    (t ≠ Transition.demotePick →
      tr.head? = some (Ev.movImage (srcOf t) (dstOf t) name)) := by
  cases t with
  | toTrash =>
    have htr := to_trash_trace fs name fs1 tr h
    exact ⟨htr, fun hc => absurd hc (by decide), fun _ => by rw [htr]; rfl⟩
  | toPicks =>
    have htr := to_picks_trace fs name fs1 tr h
    exact ⟨htr, fun hc => absurd hc (by decide), fun _ => by rw [htr]; rfl⟩
  | restoreFromTrash =>
    have htr := restore_trace fs name fs1 tr h
    exact ⟨htr, fun hc => absurd hc (by decide), fun _ => by rw [htr]; rfl⟩
  | demotePick =>
    have htr := demote_trace fs name fs1 tr h
    exact ⟨htr, fun _ => by rw [htr]; rfl, fun hne => absurd rfl hne⟩

def fsC1 : FS :=
  ⟨⟨true, [("a.png", FContent.binary ("img")),
           ("a.json", FContent.json [("filename", Val.str ("a.png"))])]⟩,
   ⟨true, []⟩, ⟨true, []⟩⟩

/-- Claim C1 counterexample: a successful `to-trash` run whose first
performed step is the image-file move and whose last step is the
source-sidecar delete — the image move is not the last step. -/
theorem C1_counterexample :
    (move_to_trash fsC1 "a.png").2.2 = none ∧
    (move_to_trash fsC1 "a.png").2.1 =
      [Ev.movImage Loc.pool Loc.trash "a.png", Ev.writeSidecar Loc.trash "a.json",
       Ev.delSidecar Loc.pool "a.json"] ∧
    (move_to_trash fsC1 "a.png").2.1.getLast? =
      some (Ev.delSidecar Loc.pool "a.json") := by
  refine ⟨?_, ?_, ?_⟩ <;> decide

/-- Claim C1 witness: a successful demote-pick run, where the image
move is indeed the last step. -/
theorem C1_witness :
    traceOf Transition.demotePick "b.png" = traceOf Transition.demotePick "b.png" ∧
    ((traceOf Transition.demotePick "b.png").getLast? =
      some (Ev.movImage (srcOf Transition.demotePick) (dstOf Transition.demotePick) "b.png")) :=
  by
  have h := C1_amended_step_order Transition.demotePick
    ⟨⟨true, []⟩,
     ⟨true, [("b.png", FContent.binary ("i2")),
             ("b.json", FContent.json [("filename", Val.str ("b.png"))])]⟩,
     ⟨true, []⟩⟩ "b.png"
    ⟨⟨true, [("b.json", FContent.json
        [("filename", Val.str ("b.png")), ("pick", Val.bool false), ("rating", Val.num 4)]),
      ("b.png", FContent.binary ("i2"))]⟩, ⟨true, []⟩, ⟨true, []⟩⟩
    (traceOf Transition.demotePick "b.png") (by decide)
  exact ⟨h.1, h.2.1 rfl⟩

theorem setDir_dirOf_self (fs : FS) (l : Loc) : fs.setDir l (fs.dirOf l) = fs := by
  cases l <;> rfl

theorem ensureDir_shape (fs : FS) (l : Loc)
    (h : (fs.dirOf l).present = false → (fs.dirOf l).files = []) :
    fs.ensureDir l = fs.setDir l ⟨true, (fs.dirOf l).files⟩ := by
  by_cases hp : (fs.dirOf l).present = true
  · rw [ensureDir_of_present fs l hp]
    have hd : (⟨true, (fs.dirOf l).files⟩ : Dir) = fs.dirOf l := by rw [← hp]
    rw [hd, setDir_dirOf_self]
  · have hp' : (fs.dirOf l).present = false := by
      cases hb : (fs.dirOf l).present
      · rfl
      · exact absurd hb hp
    rw [h hp']
    simp [FS.ensureDir, hp']

/-- Claim C2 (amended): when the source image file is absent,
to-trash, to-picks and restore-from-trash fail before touching any
file, leaving every directory's contents unchanged (in particular the
source sidecar); demote-pick, however, first merges an existing source
sidecar, writes it to the destination and deletes it at the source,
and only then fails on the missing image. -/
theorem C2_missing_source (fs : FS) (name : String) (hW : fs.WF) :
    (∀ t, t ≠ Transition.demotePick → getFile fs (srcOf t) name = none →
      ((runTransition t fs name).2.2).isSome = true ∧
      (∀ l, ((runTransition t fs name).1.dirOf l).files = (fs.dirOf l).files)) ∧
    (∀ d : Obj, fs.picks.present = true →
      getA fs.picks.files name = none →
      getA fs.picks.files (sideName name) = some (FContent.json d) →
      sideName name ≠ name →
      ((demote_pick fs name).2.2).isSome = true ∧
      getFile (demote_pick fs name).1 Loc.picks (sideName name) = none ∧
      getFile (demote_pick fs name).1 Loc.pool (sideName name) =
        some (FContent.json (dictUpdate d demotePatch))) := by
  obtain ⟨⟨hWp, hWpn⟩, ⟨hWk, hWkn⟩, ⟨hWt, hWtn⟩⟩ := hW
  have hEp : fs.ensureDir Loc.pool = ⟨⟨true, fs.pool.files⟩, fs.picks, fs.trash⟩ := by
    rw [ensureDir_shape fs Loc.pool hWp]
    rfl
  constructor
  · intro t hne h
    cases t with
    | toTrash =>
      have hE : (fs.ensureDir Loc.pool).ensureDir Loc.trash =
          ⟨⟨true, fs.pool.files⟩, fs.picks, ⟨true, fs.trash.files⟩⟩ := by
        rw [ensureDir_shape fs Loc.pool hWp,
            ensureDir_shape _ Loc.trash (by simpa [FS.setDir, FS.dirOf] using hWt)]
        rfl
      have hA : getA fs.pool.files name = none := by
        cases hb : fs.pool.present
        · rw [hWp hb]
          rfl
        · simpa [getFile, FS.dirOf, srcOf, hb] using h
      have hrun : move_to_trash fs name =
          (⟨⟨true, fs.pool.files⟩, fs.picks, ⟨true, fs.trash.files⟩⟩, [],
           some (wrap (PyErr.http 404 (name ++ " does not exist in source")))) := by
        simp only [move_to_trash]
        rw [hE]
        simp [move_file, getFile, FS.dirOf, hA]
      constructor
      · show ((move_to_trash fs name).2.2).isSome = true
        rw [hrun]
        rfl
      · intro l
        show ((move_to_trash fs name).1.dirOf l).files = (fs.dirOf l).files
        rw [hrun]
        cases l <;> rfl
    | toPicks =>
      have hE : (fs.ensureDir Loc.pool).ensureDir Loc.picks =
          ⟨⟨true, fs.pool.files⟩, ⟨true, fs.picks.files⟩, fs.trash⟩ := by
        rw [ensureDir_shape fs Loc.pool hWp,
            ensureDir_shape _ Loc.picks (by simpa [FS.setDir, FS.dirOf] using hWk)]
        rfl
      have hA : getA fs.pool.files name = none := by
        cases hb : fs.pool.present
        · rw [hWp hb]
          rfl
        · simpa [getFile, FS.dirOf, srcOf, hb] using h
      have hrun : move_to_picks fs name =
          (⟨⟨true, fs.pool.files⟩, ⟨true, fs.picks.files⟩, fs.trash⟩, [],
           some (wrap (PyErr.http 404 (name ++ " does not exist in source")))) := by
        simp only [move_to_picks]
        rw [hE]
        simp [move_file, getFile, FS.dirOf, hA]
      constructor
      · show ((move_to_picks fs name).2.2).isSome = true
        rw [hrun]
        rfl
      · intro l
        show ((move_to_picks fs name).1.dirOf l).files = (fs.dirOf l).files
        rw [hrun]
        cases l <;> rfl
    | restoreFromTrash =>
      by_cases hT : fs.trash.present = true
      · have hA : getA fs.trash.files name = none := by
          simpa [getFile, FS.dirOf, srcOf, hT] using h
        have hrun : restore_from_trash fs name =
            (⟨⟨true, fs.pool.files⟩, fs.picks, fs.trash⟩, [],
             some (wrap (PyErr.http 404 (name ++ " does not exist in source")))) := by
          simp only [restore_from_trash]
          rw [hEp]
          simp [move_file, getFile, FS.dirOf, hA, hT]
        constructor
        · show ((restore_from_trash fs name).2.2).isSome = true
          rw [hrun]
          rfl
        · intro l
          show ((restore_from_trash fs name).1.dirOf l).files = (fs.dirOf l).files
          rw [hrun]
          cases l <;> rfl
      · have hT' : fs.trash.present = false := by
          cases hb : fs.trash.present
          · rfl
          · exact absurd hb hT
        have hrun : restore_from_trash fs name =
            (⟨⟨true, fs.pool.files⟩, fs.picks, fs.trash⟩, [],
             some (wrap (PyErr.http 404 ("Trash directory does not exist")))) := by
          simp only [restore_from_trash]
          rw [hEp]
          simp [FS.dirOf, hT']
        constructor
        · show ((restore_from_trash fs name).2.2).isSome = true
          rw [hrun]
          rfl
        · intro l
          show ((restore_from_trash fs name).1.dirOf l).files = (fs.dirOf l).files
          rw [hrun]
          cases l <;> rfl
    | demotePick => exact absurd rfl hne
  · intro d hkp hni hsd h3
    have h1' : getA (delA fs.picks.files (sideName name)) name = none := by
      rw [getA_delA_ne _ _ _ (Ne.symm h3)]
      exact hni
    have hrun : demote_pick fs name =
        (⟨⟨true, setA fs.pool.files (sideName name)
            (FContent.json (dictUpdate d demotePatch))⟩,
          ⟨fs.picks.present, delA fs.picks.files (sideName name)⟩, fs.trash⟩,
         [Ev.writeSidecar Loc.pool (sideName name), Ev.delSidecar Loc.picks (sideName name)],
         some (wrap (PyErr.http 404 (name ++ " does not exist in source")))) := by
      simp only [demote_pick]
      rw [hEp]
      simp [update_json_metadata, move_file, getFile, FS.dirOf, FS.setFiles, FS.setDir,
        hkp, hsd, h1']
    refine ⟨?_, ?_, ?_⟩
    · rw [hrun]
      rfl
    · rw [hrun]
      simp [getFile, FS.dirOf, hkp, getA_delA_self _ _ hWkn]
    · rw [hrun]
      simp [getFile, FS.dirOf, getA_setA_self]

def fsC2 : FS :=
  ⟨⟨true, []⟩,
   ⟨true, [("a.json", FContent.json [("filename", Val.str ("a.png"))])]⟩,
   ⟨true, []⟩⟩

/-- Claim C2 counterexample: demote-pick with the source image absent
but the source sidecar present fails, yet the sidecar is NOT left
untouched — it has been merged, written to the pool and deleted from
picks. -/
theorem C2_counterexample :
    getFile fsC2 Loc.picks "a.png" = none ∧
    getFile fsC2 Loc.picks "a.json" =
      some (FContent.json [("filename", Val.str ("a.png"))]) ∧
    ((demote_pick fsC2 "a.png").2.2).isSome = true ∧
    getFile (demote_pick fsC2 "a.png").1 Loc.picks "a.json" = none ∧
    getFile (demote_pick fsC2 "a.png").1 Loc.pool "a.json" =
      some (FContent.json [("filename", Val.str ("a.png")), ("pick", Val.bool false),
                           ("rating", Val.num 4)]) := by
  refine ⟨?_, ?_, ?_, ?_, ?_⟩ <;> decide

/-- Claim C2 witness: the amended statement applied to the same
concrete state — absent image on the non-demote transitions leaves all
files unchanged, and demote-pick relocates the sidecar before
failing. -/
theorem C2_witness :
    (((runTransition Transition.toTrash fsC2 "a.png").2.2).isSome = true ∧
      (∀ l, ((runTransition Transition.toTrash fsC2 "a.png").1.dirOf l).files =
        (fsC2.dirOf l).files)) ∧
    (((demote_pick fsC2 "a.png").2.2).isSome = true ∧
      getFile (demote_pick fsC2 "a.png").1 Loc.picks (sideName "a.png") = none ∧
      getFile (demote_pick fsC2 "a.png").1 Loc.pool (sideName "a.png") =
        some (FContent.json (dictUpdate [("filename", Val.str ("a.png"))] demotePatch))) :=
  ⟨(C2_missing_source fsC2 "a.png" (by decide)).1 Transition.toTrash (by decide) (by decide),
   (C2_missing_source fsC2 "a.png" (by decide)).2 [("filename", Val.str ("a.png"))]
     (by decide) (by decide) (by decide) (by decide)⟩
